import Mathlib

/-!
Verification development for the SUMO Live Data Loop detector pipeline.

Shallow embedding of the parts of the code relevant to the checked
properties:

* `src/sumo_ldl/evalDetector.py` — error classifiers, the `Data` record
  and its `fix` / `unfix` / `getIfNotFixed` discipline;
* `src/sumo_ldl/tools.py` — `daySecond`, `roundToMinute`, `geh`;
* `src/sumo_ldl/correctDetector.py` — `dateToIndex`,
  `DataWindow.prepare_dataLists`, `valid_indices_and_data` and the
  gap-filling logic of `polynomialFix`;
* `src/sumo_ldl/aggregateData.py` — the per-edge rollup of
  `insertAggregated`;
* `src/sumo_ldl/fusion.py` — `FusionValue`;
* `src/sumoldl/extrapolation.py` — `safe_avg`, `smooth_predictor`,
  `get_correction`, `feedback_predictor_absolute`.

Numeric values are rationals (the Python code computes in double
precision; all quantities appearing in the verified properties are exact
in ℚ), datetimes are integer counts of seconds, time deltas are integer
numbers of seconds.
-/

namespace SumoLDL

/-! ### evalDetector.py -/

/-- `MAX_FLOW = 2500` (veh/h). -/
def MAX_FLOW : ℚ := 2500

/-- `dbSchema.EvalDetector.kmhMultiplier`; the default schema
(`default_schema.py`, region `braunschweig`) sets it to `1.0`
(speeds in the DB are km/h). -/
def kmhMultiplier : ℚ := 1

/-- The two vehicle classes `PKW` (cars) and `LKW` (trucks). -/
inductive VehType
  | PKW
  | LKW
deriving DecidableEq, Repr

/-- `MAX_SPEED = {PKW: 250 * (1/kmhMultiplier), LKW: 120 * (1/kmhMultiplier)}`. -/
def MAX_SPEED : VehType → ℚ
  | .PKW => 250 * (1 / kmhMultiplier)
  | .LKW => 120 * (1 / kmhMultiplier)

/-- `LENGTH = {PKW: 5, LKW: 10}` (meter). -/
def LENGTH : VehType → ℚ
  | .PKW => 5
  | .LKW => 10

/-- `maxFlowPerHour(v, l) = v * 3600 / (v * kmhMultiplier * 0.4 + l)`.
(In ℚ a zero denominator yields 0; Python would raise there, but the
denominator is positive for all nonnegative speeds.) -/
def maxFlowPerHour (v l : ℚ) : ℚ :=
  v * 3600 / (v * kmhMultiplier * (2/5) + l)

/-- `_getDataError(q, v, vMax, l, updateInterval)`: error code for errors
affecting flow and speed.  `uSec` is `updateInterval.seconds`. -/
def getDataError (q v : Option ℚ) (vMax l uSec : ℚ) : ℕ :=
  match q with
  | none => 1
  | some qv =>
    if qv < 0 then 2
    else
      match v with
      | none => 0
      | some vv =>
        let flowPerHour := qv * 3600 / uSec
        if vv < 0 then 2
        else if 0 < vv ∧ qv = 0 then 5
        else if MAX_FLOW < flowPerHour ∨ vMax < vv then 7
        else if 0 < vv ∧ maxFlowPerHour vv l < flowPerHour then 8
        else 0

/-- `_getSpeedError(q, v, maxLaneSpeed)`: error code for errors affecting
speed only. -/
def getSpeedError (q v : Option ℚ) (maxLaneSpeed : ℚ) : ℕ :=
  match q, v with
  | none, _ => 1
  | some qv, none => if 0 < qv then 1 else 0
  | some qv, some vv =>
    if 0 < qv ∧ vv = 0 then 6
    else if (5/4 : ℚ) < vv / maxLaneSpeed then 9
    else 0

/-- The four data attributes `Data.attrs = ('qPKW', 'qLKW', 'vPKW', 'vLKW')`. -/
inductive Attr
  | qPKW
  | qLKW
  | vPKW
  | vLKW
deriving DecidableEq, Repr

/-- `is_flow_attr(attr)`: the attribute name starts with `q`. -/
def Attr.isFlow : Attr → Bool
  | .qPKW => true
  | .qLKW => true
  | _ => false

/-- The vehicle class in the attribute name (`attr[1:]`). -/
def Attr.vehType : Attr → VehType
  | .qPKW => .PKW
  | .vPKW => .PKW
  | _ => .LKW

/-- The flow attribute `'q' + type` for a vehicle class. -/
def VehType.flowAttr : VehType → Attr
  | .PKW => .qPKW
  | .LKW => .qLKW

/-- The record class `Data` of `evalDetector.py`.  `origID` is either a
real source id (nonnegative), `NO_ORIG_DATA = -1` or `FORECAST_DATA = -2`;
`origDate` and `detID` are kept abstract as optional integers (they play
no role in the verified arithmetic). `fixed` is the set of attributes
replaced by the gap filler. -/
structure Data where
  origID : Option ℤ
  detID : Option ℤ
  origDate : Option ℤ
  qPKW : Option ℚ
  qLKW : Option ℚ
  vPKW : Option ℚ
  vLKW : Option ℚ
  errorPKW : ℕ
  errorLKW : ℕ
  fixed : Attr → Bool
  toBeWritten : Bool

/-- `getattr(self, attr)` for the four data attributes. -/
def Data.attr (d : Data) : Attr → Option ℚ
  | .qPKW => d.qPKW
  | .qLKW => d.qLKW
  | .vPKW => d.vPKW
  | .vLKW => d.vLKW

/-- `setattr(self, attr, value)` for the four data attributes. -/
def Data.setAttr (d : Data) (a : Attr) (value : Option ℚ) : Data :=
  match a with
  | .qPKW => { d with qPKW := value }
  | .qLKW => { d with qLKW := value }
  | .vPKW => { d with vPKW := value }
  | .vLKW => { d with vLKW := value }

/-- `Data.__init__(origID, detectorID, origDate, qKFZ, qLKW, vPKW, vLKW)`:
when both the total flow `qKFZ` and the truck flow `qLKW` are known, the
stored car flow is `qKFZ - qLKW`, otherwise `qKFZ` is stored unchanged. -/
def mkData (origID detID origDate : Option ℤ) (qKFZ qLKW vPKW vLKW : Option ℚ) : Data :=
  { origID := origID
    detID := detID
    origDate := origDate
    qPKW :=
      match qKFZ, qLKW with
      | some k, some l => some (k - l)
      | _, _ => qKFZ
    qLKW := qLKW
    vPKW := vPKW
    vLKW := vLKW
    errorPKW := 0
    errorLKW := 0
    fixed := fun _ => false
    toBeWritten := true }

/-- `hasOrigID()` (for the default region: `origID is not None and origID >= 0`). -/
def Data.hasOrigID (d : Data) : Bool :=
  match d.origID with
  | none => false
  | some i => 0 ≤ i

/-- `getIfNotFixed(attr)`: the value of `attr` if the record has an
original id and the attribute was not fixed, `None` otherwise. -/
def Data.getIfNotFixed (d : Data) (a : Attr) : Option ℚ :=
  if ¬ d.hasOrigID ∨ d.fixed a then none else d.attr a

/-- The successful tail of `Data.fix`: assign the value, add the
attribute to `fixed`, mark `toBeWritten`. -/
def Data.commitFix (d : Data) (a : Attr) (value : ℚ) : Data :=
  let d1 := d.setAttr a (some value)
  { d1 with fixed := fun a2 => if a2 = a then true else d1.fixed a2, toBeWritten := true }

/-- `Data.fix(attr, value, updateInterval)`; `uSec` is
`updateInterval.seconds`.  Returns the success flag together with the
(possibly updated) record. -/
def Data.fix (d : Data) (a : Attr) (value : ℚ) (uSec : ℚ) : Bool × Data :=
  if a.isFlow then
    if value < 0 then (false, d)                               -- error 2
    else if MAX_FLOW < value * 3600 / uSec then (false, d)     -- error 7
    else (true, d.commitFix a value)
  else
    match d.attr a.vehType.flowAttr with
    | none => (false, d)  -- if flow could not be fixed, do not trust the speed either
    | some flow =>
      if flow = 0 then
        if 0 < value then (false, d)                           -- error 5
        else (true, d.commitFix a value)
      else
        if 0 < getSpeedError (some flow) (some value) (MAX_SPEED a.vehType) then
          (false, d)                                           -- error 6 or 9
        else if maxFlowPerHour value (LENGTH a.vehType) < flow * 3600 / uSec then
          (false, d)                                           -- error 8
        else (true, d.commitFix a value)

/-- `unfix()`: reset all fixed attributes to `None`, clear `fixed`,
mark `toBeWritten` (no-op when nothing is fixed). -/
def Data.unfix (d : Data) : Data :=
  if d.fixed .qPKW ∨ d.fixed .qLKW ∨ d.fixed .vPKW ∨ d.fixed .vLKW then
    { d with
      qPKW := if d.fixed .qPKW then none else d.qPKW
      qLKW := if d.fixed .qLKW then none else d.qLKW
      vPKW := if d.fixed .vPKW then none else d.vPKW
      vLKW := if d.fixed .vLKW then none else d.vLKW
      fixed := fun _ => false
      toBeWritten := true }
  else d

/-! ### Claim C1 -/

/-- C1, amended: `Data.fix(attr, value, updateInterval)` returns true iff
the assignment passes the per-attribute legality checks: a flow fix
requires `value ≥ 0` and hourly flow `≤ MAX_FLOW`; a speed fix is
rejected when the corresponding flow is null; when the flow is 0 any
positive speed is rejected; otherwise the speed-error predicates and the
`maxFlowPerHour(value, length)` bound are enforced.  (The further part of
the original claim — that an attribute set by a successful fix never
exhibits an error of kinds 2/5/6/7/8/9 — is refuted by
`C1_fix_error2_counterexample`: a successful speed fix may store a
negative speed, which exhibits error kind 2.) -/
theorem C1_fix_legality (d : Data) (a : Attr) (v u : ℚ) :
    (d.fix a v u).1 = true ↔
      (if a.isFlow then 0 ≤ v ∧ v * 3600 / u ≤ MAX_FLOW
       else ∃ f, d.attr a.vehType.flowAttr = some f ∧
        ((f = 0 ∧ v ≤ 0) ∨
         (f ≠ 0 ∧ getSpeedError (some f) (some v) (MAX_SPEED a.vehType) = 0 ∧
          f * 3600 / u ≤ maxFlowPerHour v (LENGTH a.vehType)))) := by
  unfold Data.fix
  cases hf : a.isFlow
  · simp only [Bool.false_eq_true, if_false]
    cases hfl : d.attr a.vehType.flowAttr with
    | none => simp
    | some f =>
      dsimp only
      by_cases h0 : f = 0
      · subst h0
        by_cases h5 : 0 < v
        · simp [h5, not_le.mpr h5]
        · simp [h5, not_lt.mp h5]
      · by_cases h69 : 0 < getSpeedError (some f) (some v) (MAX_SPEED a.vehType)
        · simp [h0, h69, Nat.pos_iff_ne_zero.mp h69]
        · by_cases h8 : maxFlowPerHour v (LENGTH a.vehType) < f * 3600 / u
          · simp [h0, h69, h8, not_le.mpr h8]
          · simp [h0, h69, h8, Nat.eq_zero_of_not_pos h69, not_lt.mp h8]
  · simp only [eq_self_iff_true, if_true]
    by_cases h2 : v < 0
    · simp [h2, not_le.mpr h2]
    · by_cases h7 : MAX_FLOW < v * 3600 / u
      · simp [h2, h7, not_le.mpr h7]
      · simp [h2, h7, not_lt.mp h2, not_lt.mp h7]

/-- Concrete record for the C1 counterexample: a raw row with total flow
0 and truck flow 0 (so `qPKW = 0`) and unknown speeds. -/
def c1Data : Data := mkData (some 1) (some 1) (some 0) (some 0) (some 0) none none

/-- C1 counterexample: on a record with `qPKW = 0`,
`fix('vPKW', -1, 60s)` succeeds (flow is 0 and the value is not
positive), yet the resulting record exhibits error kind 2 under the
flow-and-speed classifier (`v < 0`).  So a successful fix can introduce
an error of kind 2, refuting the original claim. -/
theorem C1_fix_error2_counterexample :
    (c1Data.fix .vPKW (-1) 60).1 = true ∧
    getDataError (c1Data.fix .vPKW (-1) 60).2.qPKW (c1Data.fix .vPKW (-1) 60).2.vPKW
      (MAX_SPEED .PKW) (LENGTH .PKW) 60 = 2 := by
  constructor <;>
    norm_num [c1Data, mkData, Data.fix, Data.attr, Attr.isFlow, Attr.vehType,
      VehType.flowAttr, Data.commitFix, Data.setAttr, getDataError]

/-- C1 witness: the legality characterization applied to the concrete
record `c1Data` and a flow fix of value 10 at a 60 s update interval. -/
theorem C1_fix_legality_witness :
    (c1Data.fix .qPKW 10 60).1 = true :=
  (C1_fix_legality c1Data .qPKW 10 60).mpr
    (by norm_num [Attr.isFlow, MAX_FLOW])

/-! ### tools.py -/

/-- The three rounding modes `ROUND_UP = 1`, `ROUND_DOWN = 2`,
`ROUND_HALF_UP = 3` (any other value raises `ValueError`). -/
inductive Rounding
  | up
  | down
  | halfUp
deriving DecidableEq, Repr

/-- `daySecond(time)`: the second of the day, a number in `[0, 24*3600)`.
Datetimes are modelled at second granularity, as counts of seconds since
an epoch at midnight, so `hour*3600 + minute*60 + second` is
`time % 86400`.  (The optional `begin` argument is not used by
`roundToMinute`.) -/
def daySecond (time : ℕ) : ℕ := time % 86400

/-- `roundToMinute(date, interval, rounding)` from `tools.py`;
`intervalSec` is `interval.seconds`, assumed (via the assert in the
source) to divide `24 * 3600`.  `date.replace(hour=0, minute=0,
second=0, microsecond=0)` is `date - daySecond date`, and `int(x)` of the
nonnegative quotient is the floor. -/
def roundToMinute (date : ℕ) (intervalSec : ℕ) (rounding : Rounding) : ℕ :=
  let seconds := daySecond date
  if seconds % intervalSec = 0 then date
  else
    let seconds2 : ℚ :=
      match rounding with
      | .down => seconds
      | .halfUp => (seconds : ℚ) + (intervalSec : ℚ) / 2
      | .up => (seconds : ℚ) + intervalSec
    let resultSeconds : ℕ := intervalSec * (⌊seconds2 / (intervalSec : ℚ)⌋).toNat
    (date - seconds) + resultSeconds

/-- `geh(m, c)`: the Geoffrey E. Havers error function for hourly flows,
0 when `m + c = 0` and `sqrt(2*(m-c)*(m-c)/(m+c))` otherwise. -/
noncomputable def geh (m c : ℚ) : ℝ :=
  if m + c = 0 then 0
  else Real.sqrt ((2 * (m - c) * (m - c) / (m + c) : ℚ))

lemma daySecond_mod_of_dvd {D : ℕ} (hdvd : D ∣ 86400) (s : ℕ) :
    daySecond s % D = s % D :=
  Nat.mod_mod_of_dvd s hdvd

lemma floor_ratCast_div_nat (b D : ℕ) :
    (⌊(b : ℚ) / (D : ℚ)⌋).toNat = b / D := by
  rw [Int.floor_toNat, Nat.floor_div_nat, Nat.floor_natCast]

lemma sub_daySecond_eq (t : ℕ) : t - daySecond t = 86400 * (t / 86400) := by
  have := Nat.mod_add_div t 86400
  unfold daySecond
  omega

lemma sub_daySecond_mod {t D : ℕ} (hdvd : D ∣ 86400) :
    (t - daySecond t) % D = 0 := by
  rw [sub_daySecond_eq]
  obtain ⟨c, hc⟩ := hdvd.mul_right (t / 86400)
  simp [hc, Nat.mul_mod_right]

lemma down_core {t D : ℕ} (hD : 0 < D) (hdvd : D ∣ 86400) :
    t - daySecond t + D * (daySecond t / D) = D * (t / D) := by
  obtain ⟨k, hk⟩ := hdvd
  have hds : daySecond t ≤ t := Nat.mod_le t 86400
  have ht : t = D * (k * (t / 86400)) + daySecond t := by
    have h86 := sub_daySecond_eq t
    rw [← Nat.mul_assoc, ← hk]
    omega
  have hdiv : t / D = k * (t / 86400) + daySecond t / D := by
    conv_lhs => rw [ht]
    exact Nat.mul_add_div hD _ _
  rw [hdiv, sub_daySecond_eq t, hk]
  ring

lemma roundToMinute_down_eq {t D : ℕ} (hD : 0 < D) (hdvd : D ∣ 86400) :
    roundToMinute t D .down = D * (t / D) := by
  unfold roundToMinute
  by_cases h : daySecond t % D = 0
  · rw [if_pos h]
    have hdt : D ∣ t := by
      have hb := daySecond_mod_of_dvd hdvd t
      exact Nat.dvd_of_mod_eq_zero (by omega)
    exact (Nat.mul_div_cancel' hdt).symm
  · rw [if_neg h]
    dsimp only
    rw [floor_ratCast_div_nat]
    exact down_core hD hdvd

lemma roundToMinute_up_eq {t D : ℕ} (hD : 0 < D) (hdvd : D ∣ 86400)
    (hndvd : ¬ D ∣ t) : roundToMinute t D .up = D * (t / D) + D := by
  unfold roundToMinute
  have hb := daySecond_mod_of_dvd hdvd t
  have h : ¬ daySecond t % D = 0 := by
    rw [hb]
    exact fun hc => hndvd (Nat.dvd_of_mod_eq_zero hc)
  rw [if_neg h]
  dsimp only
  have hcast : ((daySecond t : ℚ) + D) = ((daySecond t + D : ℕ) : ℚ) := by push_cast; ring
  rw [hcast, floor_ratCast_div_nat, Nat.add_div_right _ hD, Nat.mul_add, Nat.mul_one,
    ← Nat.add_assoc, down_core hD hdvd]

lemma roundToMinute_halfUp_spec {t D : ℕ} (hD : 0 < D) (hdvd : D ∣ 86400) :
    roundToMinute t D .halfUp % D = 0 ∧
    2 * t < 2 * roundToMinute t D .halfUp + D ∧
    2 * roundToMinute t D .halfUp ≤ 2 * t + D := by
  unfold roundToMinute
  by_cases h : daySecond t % D = 0
  · rw [if_pos h]
    have hb := daySecond_mod_of_dvd hdvd t
    refine ⟨by omega, by omega, by omega⟩
  · rw [if_neg h]
    dsimp only
    set b := daySecond t with hbdef
    set c : ℤ := ⌊((b : ℚ) + (D : ℚ) / 2) / (D : ℚ)⌋ with hcdef
    have hDQ : (0 : ℚ) < D := by exact_mod_cast hD
    have hnum : (0 : ℚ) ≤ (b : ℚ) + (D : ℚ) / 2 := by positivity
    have hc0 : 0 ≤ c := Int.floor_nonneg.mpr (by positivity)
    have hle : (c : ℚ) ≤ ((b : ℚ) + (D : ℚ) / 2) / D := Int.floor_le _
    have hlt : ((b : ℚ) + (D : ℚ) / 2) / D < c + 1 := Int.lt_floor_add_one _
    have hle2 : 2 * (c : ℚ) * D ≤ 2 * b + D := by
      have := mul_le_mul_of_nonneg_right hle (le_of_lt hDQ)
      rw [div_mul_cancel₀ _ (ne_of_gt hDQ)] at this
      linarith
    have hlt2 : 2 * (b : ℚ) < 2 * (c : ℚ) * D + D := by
      have := mul_lt_mul_of_pos_right hlt hDQ
      rw [div_mul_cancel₀ _ (ne_of_gt hDQ)] at this
      linarith
    have hcnat : ((c.toNat : ℤ) : ℚ) = (c : ℚ) := by
      rw [Int.toNat_of_nonneg hc0]
    have hleN : 2 * (D * c.toNat) ≤ 2 * b + D := by
      have h1 : (2 * (D * c.toNat) : ℚ) ≤ 2 * b + D := by
        rw [show ((c.toNat : ℚ)) = (c : ℚ) by exact_mod_cast hcnat]
        linarith
      exact_mod_cast h1
    have hltN : 2 * b < 2 * (D * c.toNat) + D := by
      have h1 : (2 * (b : ℚ)) < 2 * (D * c.toNat) + D := by
        rw [show ((c.toNat : ℚ)) = (c : ℚ) by exact_mod_cast hcnat]
        linarith
      exact_mod_cast h1
    have hbt : b ≤ t := Nat.mod_le t 86400
    have hsub : (t - b) % D = 0 := sub_daySecond_mod hdvd
    refine ⟨?_, by omega, by omega⟩
    have : (t - b + D * c.toNat) % D = ((t - b) % D + (D * c.toNat) % D) % D := by
      rw [Nat.add_mod]
    simp [this, hsub, Nat.mul_mod_right]

/-! ### Claim C8 -/

/-- C8: for every (second-granularity) datetime `t` and every interval
`D` that evenly divides `24*3600` seconds, `roundToMinute(t, D,
ROUND_DOWN)` is the largest datetime `t' ≤ t` whose day-second is
congruent to 0 modulo `D`; `ROUND_UP` yields the smallest such `t' ≥ t`;
and `ROUND_HALF_UP` yields the multiple nearest to `t`, ties rounded
upward (characterized by `t - D/2 < t' ≤ t + D/2`, stated with doubled
sides to stay in integers). -/
theorem C8_roundToMinute_spec (t D : ℕ) (hD : 0 < D) (hdvd : D ∣ 86400) :
    (daySecond (roundToMinute t D .down) % D = 0 ∧ roundToMinute t D .down ≤ t ∧
      ∀ s, s ≤ t → daySecond s % D = 0 → s ≤ roundToMinute t D .down) ∧
    (daySecond (roundToMinute t D .up) % D = 0 ∧ t ≤ roundToMinute t D .up ∧
      ∀ s, t ≤ s → daySecond s % D = 0 → roundToMinute t D .up ≤ s) ∧
    (daySecond (roundToMinute t D .halfUp) % D = 0 ∧
      2 * t < 2 * roundToMinute t D .halfUp + D ∧
      2 * roundToMinute t D .halfUp ≤ 2 * t + D) := by
  have hsdvd : ∀ s : ℕ, daySecond s % D = 0 → D ∣ s := fun s hs =>
    Nat.dvd_of_mod_eq_zero (by rw [← daySecond_mod_of_dvd hdvd s]; exact hs)
  refine ⟨?_, ?_, ?_⟩
  · rw [roundToMinute_down_eq hD hdvd]
    refine ⟨?_, Nat.mul_div_le t D, ?_⟩
    · rw [daySecond_mod_of_dvd hdvd]
      simp [Nat.mul_mod_right]
    · intro s hst hs
      obtain ⟨m, hm⟩ := hsdvd s hs
      subst hm
      have hmle : m ≤ t / D :=
        (Nat.le_div_iff_mul_le hD).mpr (by rw [Nat.mul_comm]; exact hst)
      exact Nat.mul_le_mul_left D hmle
  · by_cases hdt : D ∣ t
    · have hval : roundToMinute t D .up = t := by
        unfold roundToMinute
        rw [if_pos]
        rw [daySecond_mod_of_dvd hdvd]
        omega
      rw [hval]
      refine ⟨?_, le_refl t, fun s hts _ => hts⟩
      rw [daySecond_mod_of_dvd hdvd]
      omega
    · rw [roundToMinute_up_eq hD hdvd hdt]
      have hmod : t % D ≠ 0 := fun hc => hdt (Nat.dvd_of_mod_eq_zero hc)
      have hdm := Nat.div_add_mod t D
      have hmlt := Nat.mod_lt t hD
      refine ⟨?_, by omega, ?_⟩
      · rw [daySecond_mod_of_dvd hdvd,
          show D * (t / D) + D = D * (t / D + 1) by ring, Nat.mul_mod_right]
      · intro s hts hs
        obtain ⟨m, hm⟩ := hsdvd s hs
        subst hm
        have hgt : t / D + 1 ≤ m := by
          by_contra hle
          push_neg at hle
          have hmm : m ≤ t / D := by omega
          have : D * m ≤ D * (t / D) := Nat.mul_le_mul_left D hmm
          omega
        calc D * (t / D) + D = D * (t / D + 1) := by ring
          _ ≤ D * m := Nat.mul_le_mul_left D hgt
  · have h := roundToMinute_halfUp_spec (t := t) hD hdvd
    refine ⟨?_, h.2.1, h.2.2⟩
    rw [daySecond_mod_of_dvd hdvd]
    exact h.1

/-- C8 witness: the characterization applied at `t = 100000` (a day plus
13600 s) and `D = 300`. -/
theorem C8_roundToMinute_spec_witness :
    daySecond (roundToMinute 100000 300 .down) % 300 = 0 ∧
    roundToMinute 100000 300 .down ≤ 100000 :=
  ⟨(C8_roundToMinute_spec 100000 300 (by norm_num) (by norm_num)).1.1,
   (C8_roundToMinute_spec 100000 300 (by norm_num) (by norm_num)).1.2.1⟩

/-! ### Claim C9 -/

/-- C9: the GEH law: `geh(a, a) = 0` for every `a ≥ 0`; `geh(0, 0) = 0`;
and for all nonnegative `a`, `c` with `a + c > 0`,
`geh(a, c) = sqrt(2*(a - c)^2 / (a + c))`. -/
theorem C9_geh_law :
    (∀ a : ℚ, 0 ≤ a → geh a a = 0) ∧ geh 0 0 = 0 ∧
    (∀ a c : ℚ, 0 ≤ a → 0 ≤ c → 0 < a + c →
      geh a c = Real.sqrt (2 * ((a : ℝ) - c) ^ 2 / ((a : ℝ) + c))) := by
  refine ⟨?_, ?_, ?_⟩
  · intro a _
    unfold geh
    by_cases h : a + a = 0
    · simp [h]
    · rw [if_neg h]
      simp [sub_self]
  · unfold geh
    simp
  · intro a c _ _ hac
    unfold geh
    rw [if_neg (ne_of_gt hac)]
    congr 1
    push_cast
    ring

/-- C9 witness: the GEH law applied at `a = 1` and at `a = 3, c = 1`. -/
theorem C9_geh_law_witness :
    geh 1 1 = 0 ∧ geh 3 1 = Real.sqrt (2 * ((3 : ℝ) - 1) ^ 2 / ((3 : ℝ) + 1)) := by
  constructor
  · exact C9_geh_law.1 1 (by norm_num)
  · have h := C9_geh_law.2.2 3 1 (by norm_num) (by norm_num) (by norm_num)
    norm_num at h ⊢
    exact h

/-! ### Claim C10 -/

/-- C10: when a `Data` record is constructed from a raw row whose total
flow `qKFZ` and truck flow `qLKW` are both non-null, the stored car flow
`qPKW` equals `qKFZ - qLKW` (the raw flow input is the total vehicle
count, not the car-only count); when `qLKW` is null, `qPKW` equals
`qKFZ` unchanged.  `identify_errors` builds every record entering
classification, gap filling and write-back through this constructor. -/
theorem C10_mkData_qPKW (origID detID origDate : Option ℤ)
    (qKFZ qLKW vPKW vLKW : Option ℚ) :
    (∀ k l, qKFZ = some k → qLKW = some l →
      (mkData origID detID origDate qKFZ qLKW vPKW vLKW).qPKW = some (k - l)) ∧
    (qLKW = none →
      (mkData origID detID origDate qKFZ qLKW vPKW vLKW).qPKW = qKFZ) := by
  constructor
  · rintro k l rfl rfl
    rfl
  · rintro rfl
    cases qKFZ <;> rfl

/-- C10 witness: a row with total flow 10 and truck flow 4 stores car
flow 6; a row with unknown truck flow stores the total unchanged. -/
theorem C10_mkData_qPKW_witness :
    (mkData (some 1) (some 1) (some 0) (some 10) (some 4) none none).qPKW = some 6 ∧
    (mkData (some 1) (some 1) (some 0) (some 10) none none none).qPKW = some 10 := by
  constructor
  · have h := (C10_mkData_qPKW (some 1) (some 1) (some 0) (some 10) (some 4)
      none none).1 10 4 rfl rfl
    rw [h]
    norm_num
  · exact (C10_mkData_qPKW (some 1) (some 1) (some 0) (some 10) none none none).2 rfl

/-! ### correctDetector.py -/

/-- `dateToIndex(date) = (date - zeroIndexTime).seconds //
updateInterval.seconds`.  Python's `timedelta.seconds` is the
seconds-within-a-day component of the normalized timedelta, i.e.
`(date - zeroIndexTime) mod 86400` (with a mathematical, always
nonnegative remainder) for datetimes counted in integer seconds. -/
def dateToIndex (zeroIndexTime : ℤ) (uSec : ℕ) (date : ℤ) : ℕ :=
  ((date - zeroIndexTime) % 86400).toNat / uSec

/-- The per-detector body of `prepare_dataLists`:
`dataList[keepStart:keepEnd] + max(0, keepEnd - len(dataList)) * [None]`. -/
def prepare_dataList (keepStart keepEnd : ℕ) (dataList : List (Option Data)) :
    List (Option Data) :=
  (dataList.take keepEnd).drop keepStart ++
    List.replicate (keepEnd - dataList.length) none

/-- The state held by `DataWindow` that the verified operations touch:
the update interval (in seconds), `zeroIndexTime`, and the per-detector
data lists (detector ids abstracted into list positions). -/
structure DataWindow where
  updateInterval : ℕ
  zeroIndexTime : Option ℤ
  data : List (List (Option Data))

/-- `DataWindow.prepare_dataLists(newZeroTime, endTime)`: ensure the data
lists cover `[newZeroTime, endTime)` with existing data relocated to the
right indices.  The indices are computed against the previous
`zeroIndexTime` (`newZeroTime` itself on the very first call), which is
then advanced to `newZeroTime`.  The assert `zeroIndexTime ≤ newZeroTime`
appears as a hypothesis of the correctness theorem. -/
def DataWindow.prepare_dataLists (w : DataWindow) (newZeroTime endTime : ℤ) :
    DataWindow :=
  let z := w.zeroIndexTime.getD newZeroTime
  let keepStart := dateToIndex z w.updateInterval newZeroTime
  let keepEnd := dateToIndex z w.updateInterval endTime
  { w with
    zeroIndexTime := some newZeroTime
    data := w.data.map (prepare_dataList keepStart keepEnd) }

lemma dateToIndex_of_lt_day {z t : ℤ} {u : ℕ} (hzt : z ≤ t)
    (hday : t - z < 86400) : dateToIndex z u t = (t - z).toNat / u := by
  unfold dateToIndex
  rw [Int.emod_eq_of_lt (by omega) (by omega)]

lemma dateToIndex_split {z n e : ℤ} {u : ℕ}
    (hzn : z ≤ n) (hne : n ≤ e) (hday : e - z < 86400)
    (hgrid : (u : ℤ) ∣ (n - z)) :
    dateToIndex z u e = dateToIndex z u n + dateToIndex n u e := by
  rw [dateToIndex_of_lt_day hzn (by omega),
    dateToIndex_of_lt_day (le_trans hzn hne) hday,
    dateToIndex_of_lt_day hne (by omega)]
  have ha : (n - z).toNat + (e - n).toNat = (e - z).toNat := by omega
  have hdvd : u ∣ (n - z).toNat := by
    have h0 : (0 : ℤ) ≤ n - z := by omega
    have hcast : ((n - z).toNat : ℤ) = n - z := Int.toNat_of_nonneg h0
    exact Int.natCast_dvd_natCast.mp (by rw [hcast]; exact hgrid)
  rw [← ha, Nat.add_div_of_dvd_right hdvd]

/-! ### Claim C6 -/

/-- C6, amended: for every datetime `t ≥ zeroIndexTime` with
`t - zeroIndexTime` smaller than one day, `dateToIndex(t)` equals the
integer division of the number of seconds between `t` and
`zeroIndexTime` by `updateInterval.seconds`.  The original claim
asserted this also for differences of one day or more; there it fails,
because `timedelta.seconds` discards the day component of the
difference (see `C6_dateToIndex_counterexample`). -/
theorem C6_dateToIndex_total_seconds (z t : ℤ) (u : ℕ) (hzt : z ≤ t)
    (hday : t - z < 86400) :
    dateToIndex z u t = (t - z).toNat / u :=
  dateToIndex_of_lt_day hzt hday

/-- C6 counterexample: with `zeroIndexTime = 0`, a 60 s update interval
and `t` one day and one minute later, the code returns index 1 (the day
part of the timedelta is discarded by `.seconds`), while the claimed
total-seconds division yields 1441. -/
theorem C6_dateToIndex_counterexample :
    dateToIndex 0 60 86460 = 1 ∧ ((86460 : ℤ) - 0).toNat / 60 = 1441 ∧ (1 : ℕ) ≠ 1441 := by
  refine ⟨?_, by decide, by decide⟩
  unfold dateToIndex
  decide

/-- C6 witness: the amended statement applied at `zeroIndexTime = 0`,
`updateInterval = 60` s, `t = 150` s. -/
theorem C6_dateToIndex_witness :
    dateToIndex 0 60 150 = ((150 : ℤ) - 0).toNat / 60 :=
  C6_dateToIndex_total_seconds 0 150 60 (by norm_num) (by norm_num)

lemma prepare_dataList_length (l : List (Option Data)) (ks ke : ℕ)
    (hks : ks ≤ ke) (hcover : ks ≤ l.length) :
    (prepare_dataList ks ke l).length = ke - ks := by
  unfold prepare_dataList
  simp only [List.length_append, List.length_drop, List.length_take,
    List.length_replicate]
  omega

lemma prepare_dataList_getD (l : List (Option Data)) (ks ke j : ℕ)
    (hj : j < ke - ks) :
    (prepare_dataList ks ke l).getD j none =
      if ks + j < l.length then l.getD (ks + j) none else none := by
  unfold prepare_dataList
  have hA : ((l.take ke).drop ks).length = min ke l.length - ks := by
    simp [List.length_drop, List.length_take]
  rw [List.getD_eq_getElem?_getD, List.getD_eq_getElem?_getD]
  by_cases hcase : ks + j < l.length
  · rw [if_pos hcase]
    have hjA : j < ((l.take ke).drop ks).length := by omega
    rw [List.getElem?_append_left hjA, List.getElem?_drop,
      List.getElem?_take, if_pos (show ks + j < ke by omega)]
  · rw [if_neg hcase]
    have hjA : ((l.take ke).drop ks).length ≤ j := by omega
    rw [List.getElem?_append_right hjA, List.getElem?_replicate]
    split <;> rfl

/-! ### Claim C2 -/

/-- C2, amended: sliding-window advance.  With the precondition
`newZeroTime ≥ zeroIndexTime` (the assert in the source) and under the
conditions of normal use that the original claim leaves implicit —
`newZeroTime` on the update grid of `zeroIndexTime`, `endTime` less than
a day after `zeroIndexTime`, and `idx(newZeroTime)` not exceeding the
current array length — `prepare_dataLists(newZeroTime, endTime)` updates
`zeroIndexTime` to the not-smaller `newZeroTime`, gives every detector
array length `idx(endTime)` relative to the new zero, keeps records from
`[newZeroTime, endTime)` at indices shifted down by `idx(newZeroTime)`,
drops records before `newZeroTime` and fills the extension with nulls.
Without the array-coverage condition the length invariant fails, see
`C2_prepare_dataLists_counterexample`. -/
theorem C2_prepare_dataLists_spec (w : DataWindow) (z newZeroTime endTime : ℤ)
    (hz : w.zeroIndexTime = some z)
    (hpre : z ≤ newZeroTime)
    (hne : newZeroTime ≤ endTime)
    (hday : endTime - z < 86400)
    (hgrid : (w.updateInterval : ℤ) ∣ (newZeroTime - z)) :
    ((w.prepare_dataLists newZeroTime endTime).zeroIndexTime = some newZeroTime ∧
      z ≤ newZeroTime) ∧
    ∀ l ∈ w.data,
      prepare_dataList (dateToIndex z w.updateInterval newZeroTime)
          (dateToIndex z w.updateInterval endTime) l ∈
        (w.prepare_dataLists newZeroTime endTime).data ∧
      (dateToIndex z w.updateInterval newZeroTime ≤ l.length →
        (prepare_dataList (dateToIndex z w.updateInterval newZeroTime)
            (dateToIndex z w.updateInterval endTime) l).length =
          dateToIndex newZeroTime w.updateInterval endTime) ∧
      ∀ j < dateToIndex newZeroTime w.updateInterval endTime,
        (prepare_dataList (dateToIndex z w.updateInterval newZeroTime)
            (dateToIndex z w.updateInterval endTime) l).getD j none =
          if dateToIndex z w.updateInterval newZeroTime + j < l.length then
            l.getD (dateToIndex z w.updateInterval newZeroTime + j) none
          else none := by
  have hsplit := dateToIndex_split (u := w.updateInterval) hpre hne hday hgrid
  constructor
  · exact ⟨by simp [DataWindow.prepare_dataLists], hpre⟩
  · intro l hl
    refine ⟨?_, ?_, ?_⟩
    · simp only [DataWindow.prepare_dataLists, hz, Option.getD_some]
      exact List.mem_map_of_mem _ hl
    · intro hcover
      rw [prepare_dataList_length l _ _ (by omega) hcover]
      omega
    · intro j hj
      exact prepare_dataList_getD l _ _ j (by omega)

/-- The concrete window for the C2 counterexample: update interval 60 s,
`zeroIndexTime = 0`, one detector with an array of length 2. -/
def c2Window : DataWindow :=
  { updateInterval := 60, zeroIndexTime := some 0, data := [[none, none]] }

/-- C2 counterexample: advancing `c2Window` to `newZeroTime = 300`,
`endTime = 600` (grid-aligned, precondition `newZeroTime ≥ zeroIndexTime`
holds) produces an array of length 8, but `idx(endTime)` relative to the
new zero time is 5: the claimed length invariant is violated when
`idx(newZeroTime)` exceeds the current array length. -/
theorem C2_prepare_dataLists_counterexample :
    ((c2Window.prepare_dataLists 300 600).data.getD 0 []).length = 8 ∧
    dateToIndex 300 60 600 = 5 ∧ (8 : ℕ) ≠ 5 := by
  refine ⟨?_, ?_, by decide⟩
  · rfl
  · unfold dateToIndex
    decide

/-- C2 witness: the amended statement applied to a window at zero time 0
with one array of length 10, advanced to cover `[120, 600)`: the new
array has length `idx(600) = 8` and its first entry is the old entry at
index `idx(120) = 2`. -/
theorem C2_prepare_dataLists_spec_witness :
    (prepare_dataList (dateToIndex 0 60 120) (dateToIndex 0 60 600)
        (List.replicate 10 none)).length = dateToIndex 120 60 600 ∧
    (prepare_dataList (dateToIndex 0 60 120) (dateToIndex 0 60 600)
        (List.replicate 10 none)).getD 0 none =
      if dateToIndex 0 60 120 + 0 < (List.replicate 10 (none : Option Data)).length then
        (List.replicate 10 (none : Option Data)).getD (dateToIndex 0 60 120 + 0) none
      else none := by
  have h := C2_prepare_dataLists_spec
    { updateInterval := 60, zeroIndexTime := some 0, data := [List.replicate 10 none] }
    0 120 600 rfl (by norm_num) (by norm_num) (by norm_num) (by norm_num)
  obtain ⟨-, h2⟩ := h
  obtain ⟨-, hlen, hget⟩ := h2 (List.replicate 10 none) (by simp)
  refine ⟨hlen ?_, hget 0 ?_⟩
  · show dateToIndex 0 60 120 ≤ 10
    unfold dateToIndex
    decide
  · show 0 < dateToIndex 120 60 600
    unfold dateToIndex
    decide

/-! ### aggregateData.py -/

/-- Python `int()` truncation toward zero of a (finite) float, on ℚ. -/
def pyInt (q : ℚ) : ℤ := if q < 0 then -⌊-q⌋ else ⌊q⌋

/-- The aggregation source types. -/
inductive SourceType
  | loop
  | fcd
  | fusion
  | extrapolation
  | simulation
  | prediction
deriving DecidableEq, Repr

/-- The per-edge accumulator of `insertAggregated`:
`(flowSum, speedSum, qualitySum, coverageSum, entryCount, groupCount)`. -/
structure EdgeAccum where
  flowSum : Option ℚ
  speedSum : Option ℚ
  qualitySum : Option ℚ
  coverageSum : Option ℚ
  entryCount : ℕ
  groupCount : ℕ

/-- The per-edge emit computation of `insertAggregated`
(`aggregateData.py`, the body of the loop building `insertRows`): rows
are produced only for `entryCount > 0`; returns `(flow, speed, quality)`.
-/
def insertAggregatedEdge (typeName : SourceType) (isSimulation : Bool)
    (flowScale expectedEntryCount : ℚ) (a : EdgeAccum) :
    Option (Option ℤ × Option ℚ × Option ℚ) :=
  if a.entryCount = 0 then none
  else
    let coverage : Option ℚ :=
      if typeName = .fcd then a.coverageSum.map (fun c => c / (a.entryCount : ℚ))
      else a.coverageSum.map (fun c => c / expectedEntryCount)
    let flow : Option ℤ :=
      match a.flowSum with
      | none => none
      | some fs =>
        let f : ℚ :=
          match coverage with
          | some cov => fs / cov
          | none => fs
        if isSimulation then some (pyInt (f * flowScale / (a.entryCount : ℚ)))
        else some (pyInt (f * flowScale / (a.groupCount : ℚ)))
    let speed : Option ℚ :=
      match a.speedSum with
      | none => none
      | some ss =>
        some (ss /
          (match a.flowSum with
           | some fs => if fs = 0 then (a.entryCount : ℚ) else fs
           | none => (a.entryCount : ℚ)))
    let quality : Option ℚ :=
      match a.qualitySum with
      | none => none
      | some qs =>
        let coverageDiscount : ℚ :=
          match coverage with
          | none => 1
          | some cov => if 1 < cov then 1 / cov else cov
        some (qs * coverageDiscount / (a.entryCount : ℚ))
    some (flow, speed, quality)

/-! ### Claim C4 -/

/-- C4, amended: for every edge emitted by `insertAggregated` whose
accumulated `speedSum` is non-null (and `entryCount > 0`), the written
speed is `speedSum / flowSum` when `flowSum` is non-null and nonzero,
and `speedSum / entryCount` when `flowSum` is null or zero (Python
evaluates `flowSum if flowSum else entryCount`).  The originally claimed
divisor `max(flowSum, entryCount)` differs whenever
`0 < flowSum < entryCount`, see `C4_speed_counterexample`. -/
theorem C4_insertAggregated_speed (ty : SourceType) (isSim : Bool)
    (flowScale expectedEntryCount : ℚ) (a : EdgeAccum) (s : ℚ)
    (hc : a.entryCount ≠ 0) (hs : a.speedSum = some s) :
    (∀ f, a.flowSum = some f → f ≠ 0 →
      (insertAggregatedEdge ty isSim flowScale expectedEntryCount a).map
          (fun r => r.2.1) = some (some (s / f))) ∧
    ((a.flowSum = none ∨ a.flowSum = some 0) →
      (insertAggregatedEdge ty isSim flowScale expectedEntryCount a).map
          (fun r => r.2.1) = some (some (s / (a.entryCount : ℚ)))) := by
  constructor
  · intro f hf hf0
    simp [insertAggregatedEdge, hc, hs, hf, hf0]
  · rintro (hf | hf) <;> simp [insertAggregatedEdge, hc, hs, hf]

/-- The accumulator state of the C4 counterexample: five entries whose
speeds sum (flow-weighted) to 50 with a total flow of only 3. -/
def c4Accum : EdgeAccum :=
  { flowSum := some 3, speedSum := some 50, qualitySum := none,
    coverageSum := none, entryCount := 5, groupCount := 1 }

/-- C4 counterexample: with `flowSum = 3`, `entryCount = 5`,
`speedSum = 50` the code writes speed `50/3`, while the claimed formula
`speedSum / max(flowSum, entryCount)` yields `50/5 = 10`. -/
theorem C4_speed_counterexample :
    (insertAggregatedEdge .loop false 1 5 c4Accum).map (fun r => r.2.1) =
      some (some ((50 : ℚ) / 3)) ∧
    ((50 : ℚ) / 3) ≠ (50 : ℚ) / max (3 : ℚ) 5 := by
  constructor
  · norm_num [insertAggregatedEdge, c4Accum]
  · rw [show max (3 : ℚ) 5 = 5 by norm_num]
    norm_num

/-- C4 witness: the amended statement applied to `c4Accum` (nonzero
flow sum) and to its flow-free variant. -/
theorem C4_insertAggregated_speed_witness :
    (insertAggregatedEdge .loop false 1 5 c4Accum).map (fun r => r.2.1) =
      some (some ((50 : ℚ) / 3)) ∧
    (insertAggregatedEdge .loop false 1 5
        { c4Accum with flowSum := none }).map (fun r => r.2.1) =
      some (some ((50 : ℚ) / (5 : ℕ))) := by
  constructor
  · exact (C4_insertAggregated_speed .loop false 1 5 c4Accum 50
      (by norm_num [c4Accum]) rfl).1 3 rfl (by norm_num)
  · have h := (C4_insertAggregated_speed .loop false 1 5
      { c4Accum with flowSum := none } 50 (by norm_num [c4Accum]) rfl).2 (Or.inl rfl)
    simpa using h

/-! ### fusion.py -/

/-- The `FusionValue` accumulator of `fusion.py`. -/
structure FusionValue where
  initialized : Bool
  weightedSum : ℚ
  inverseQuality : ℚ
  weight : ℚ

/-- `FusionValue.__init__`: `initialized = False`, `weightedSum = 0`,
`inverseQuality = 1.0`, `weight = 0`. -/
def FusionValue.init : FusionValue :=
  { initialized := false, weightedSum := 0, inverseQuality := 1, weight := 0 }

/-- `FusionValue.add(value, qualityPercent, weight)`: no-op when the
value is null or `inverseQuality` already reached 0. -/
def FusionValue.add (fv : FusionValue) (value : Option ℚ)
    (qualityPercent weight : ℚ) : FusionValue :=
  match value with
  | none => fv
  | some v =>
    if 0 < fv.inverseQuality then
      { initialized := true
        weightedSum := fv.weightedSum + weight * v
        inverseQuality := fv.inverseQuality * (1 - qualityPercent / 100)
        weight := fv.weight + weight }
    else fv

/-- `FusionValue.getValueAndQualityPercent()`: `(weightedSum / weight,
100 * (1 - inverseQuality))` once initialized with positive weight,
`(None, None)` otherwise. -/
def FusionValue.getValueAndQualityPercent (fv : FusionValue) :
    Option ℚ × Option ℚ :=
  if fv.initialized = true ∧ 0 < fv.weight then
    (some (fv.weightedSum / fv.weight), some (100 * (1 - fv.inverseQuality)))
  else (none, none)

/-! ### Claim C5 -/

/-- C5: the fusion algebra of `FusionValue`: adding a single value `v`
with any quality and positive weight and then finalizing returns `v`
unchanged; adding two values with qualities `q₁, q₂` (each below 100) and
positive weights and then finalizing returns quality
`100*(1 - (1 - q₁/100)*(1 - q₂/100))`; and finalize returns
`weightedSum / weight` and `100*(1 - inverseQuality)` for every
initialized accumulator with positive weight. -/
theorem C5_fusion_algebra :
    (∀ v q w : ℚ, 0 < w →
      ((FusionValue.init.add (some v) q w).getValueAndQualityPercent).1 = some v) ∧
    (∀ v1 v2 q1 q2 w1 w2 : ℚ, q1 < 100 → q2 < 100 → 0 < w1 → 0 < w2 →
      (((FusionValue.init.add (some v1) q1 w1).add
          (some v2) q2 w2).getValueAndQualityPercent).2 =
        some (100 * (1 - (1 - q1 / 100) * (1 - q2 / 100)))) ∧
    (∀ fv : FusionValue, fv.initialized = true → 0 < fv.weight →
      fv.getValueAndQualityPercent =
        (some (fv.weightedSum / fv.weight), some (100 * (1 - fv.inverseQuality)))) := by
  refine ⟨?_, ?_, ?_⟩
  · intro v q w hw
    have hw' : w ≠ 0 := ne_of_gt hw
    simp [FusionValue.add, FusionValue.init, FusionValue.getValueAndQualityPercent,
      hw, mul_div_cancel_left₀ v hw']
  · intro v1 v2 q1 q2 w1 w2 hq1 hq2 hw1 hw2
    have h1 : (0 : ℚ) < 1 - q1 / 100 := by linarith
    have h2 : (0 : ℚ) < w1 + w2 := by linarith
    simp [FusionValue.add, FusionValue.init, FusionValue.getValueAndQualityPercent,
      h1, h2]
  · intro fv h1 h2
    simp [FusionValue.getValueAndQualityPercent, h1, h2]

/-- C5 witness: a single source `v = 7` (quality 50, weight 2) fuses to
7; qualities 80 and 30 fuse to `100*(1 - 0.2*0.7) = 86`; finalize on an
explicit accumulator returns the quotient and the complement quality. -/
theorem C5_fusion_algebra_witness :
    ((FusionValue.init.add (some 7) 50 2).getValueAndQualityPercent).1 = some 7 ∧
    (((FusionValue.init.add (some 1000) 80 80).add
        (some 50) 30 30).getValueAndQualityPercent).2 = some 86 := by
  constructor
  · exact C5_fusion_algebra.1 7 50 2 (by norm_num)
  · have h := C5_fusion_algebra.2.1 1000 50 80 30 80 30 (by norm_num) (by norm_num)
      (by norm_num) (by norm_num)
    rw [h]
    norm_num

/-! ### extrapolation.py (src/sumoldl) -/

/-- Per-edge history: a map from interval end time (seconds) to the
optional `(flow, speed)` pair loaded for it, `none` when no row was
loaded for that time (`timeValues.get(t)`). -/
def TimeValues : Type := ℤ → Option (Option ℚ × Option ℚ)

/-- `safe_avg(values, default)`: the mean of the non-null entries,
`default` when there are none. -/
def safe_avg (values : List (Option ℚ)) (default : Option ℚ) : Option ℚ :=
  let actualValues := values.filterMap id
  if actualValues ≠ [] then some (actualValues.sum / (actualValues.length : ℚ))
  else default

/-- `SAFE_SUB` from `tools.py`: subtraction that returns null when
either argument is null. -/
def SAFE_SUB (a b : Option ℚ) : Option ℚ :=
  match a, b with
  | some x, some y => some (x - y)
  | _, _ => none

/-- `smooth_predictor(offsets)`: the primary predictor averaging the
available historical values at `time - o` for `o ∈ offsets`, per
attribute (null-tolerant). -/
def smooth_predictor (offsets : List ℤ) (timeValues : TimeValues) (time : ℤ) :
    Option ℚ × Option ℚ :=
  let maybeValues := offsets.map (fun o => timeValues (time - o))
  let flows := (maybeValues.filterMap id).map Prod.fst
  let speeds := (maybeValues.filterMap id).map Prod.snd
  (safe_avg flows none, safe_avg speeds none)

/-- `get_correction(timeValues, knownTime, primaryPredictor)`: the
componentwise difference between the measurement at `knownTime` and the
primary prediction there; `[0, 0]` when no measurement is known. -/
def get_correction (timeValues : TimeValues) (knownTime : ℤ)
    (primaryPredictor : TimeValues → ℤ → Option ℚ × Option ℚ) :
    Option ℚ × Option ℚ :=
  match timeValues knownTime with
  | none => (some 0, some 0)
  | some knownValue =>
    let knownPred := primaryPredictor timeValues knownTime
    (SAFE_SUB knownValue.1 knownPred.1, SAFE_SUB knownValue.2 knownPred.2)

/-- `feedback_predictor_absolute(primaryPredictor, knownTime)`: corrects
the primary prediction by the absolute extrapolation error at the known
time; both corrected attributes are validated through `Data.fix` on a
record built by `Data(None, None, None, primary[FLOW], None,
primary[SPEED], None)` with a 3600 s update interval, so a rejected
correction leaves the primary value in place. -/
def feedback_predictor_absolute
    (primaryPredictor : TimeValues → ℤ → Option ℚ × Option ℚ)
    (knownTime : ℤ) (timeValues : TimeValues) (time : ℤ) :
    Option ℚ × Option ℚ :=
  let primary := primaryPredictor timeValues time
  let correction := get_correction timeValues knownTime primaryPredictor
  let primaryData := mkData none none none primary.1 none primary.2 none
  let d1 :=
    match primaryData.qPKW, correction.1 with
    | some pq, some cq => (primaryData.fix .qPKW (pq + cq) 3600).2
    | _, _ => primaryData
  let d2 :=
    match d1.vPKW, correction.2 with
    | some pv, some cv => (d1.fix .vPKW (pv + cv) 3600).2
    | _, _ => d1
  (d2.qPKW, d2.vPKW)

lemma Data.fix_vPKW_preserves_qPKW (d : Data) (v u : ℚ) :
    ((d.fix .vPKW v u).2).qPKW = d.qPKW := by
  unfold Data.fix
  simp only [Attr.isFlow, Bool.false_eq_true, if_false, Attr.vehType, VehType.flowAttr]
  cases h : d.attr .qPKW with
  | none => rfl
  | some f =>
    dsimp only
    split_ifs <;> simp [Data.commitFix, Data.setAttr]

/-! ### Claim C7 -/

/-- C7: extrapolator feedback correction.  The correction `Δ` is the
difference between the measurement at the last known slot `tk` and the
primary prediction there; per attribute, the feedback predictor returns
`primary(t) + Δ` whenever the fix-discipline accepts the value: for the
flow this means `0 ≤ primary+Δ ≤ MAX_FLOW`, and for the speed that the
corrected flow is non-null and the speed-error predicates and
`maxFlowPerHour` bound pass against it (`Data.fix` with a 1 h update
interval). -/
theorem C7_feedback_predictor (offsets : List ℤ) (tv : TimeValues) (t tk : ℤ) :
    (∀ m pkf mv, tv tk = some (some m, mv) →
        (smooth_predictor offsets tv tk).1 = some pkf →
        (get_correction tv tk (smooth_predictor offsets)).1 = some (m - pkf)) ∧
    (∀ pf cf, (smooth_predictor offsets tv t).1 = some pf →
        (get_correction tv tk (smooth_predictor offsets)).1 = some cf →
        0 ≤ pf + cf → pf + cf ≤ MAX_FLOW →
        (feedback_predictor_absolute (smooth_predictor offsets) tk tv t).1 =
          some (pf + cf)) ∧
    (∀ pf cf ps cs, smooth_predictor offsets tv t = (some pf, some ps) →
        get_correction tv tk (smooth_predictor offsets) = (some cf, some cs) →
        0 ≤ pf + cf → pf + cf ≤ MAX_FLOW → pf + cf ≠ 0 →
        getSpeedError (some (pf + cf)) (some (ps + cs)) (MAX_SPEED .PKW) = 0 →
        pf + cf ≤ maxFlowPerHour (ps + cs) (LENGTH .PKW) →
        (feedback_predictor_absolute (smooth_predictor offsets) tk tv t).2 =
          some (ps + cs)) := by
  refine ⟨?_, ?_, ?_⟩
  · intro m pkf mv hm hpk
    unfold get_correction
    rw [hm]
    simp [SAFE_SUB, hpk]
  · intro pf cf hp hc hge hle
    unfold feedback_predictor_absolute
    simp only [hc]
    have hq : (mkData none none none (smooth_predictor offsets tv t).1 none
        (smooth_predictor offsets tv t).2 none).qPKW = some pf := by
      rw [hp]
      simp [mkData]
    rw [hq]
    dsimp only
    have h36 : (pf + cf) * 3600 / 3600 = pf + cf := by
      field_simp
    have hfix : ((mkData none none none (smooth_predictor offsets tv t).1 none
        (smooth_predictor offsets tv t).2 none).fix .qPKW (pf + cf) 3600) =
        (true, (mkData none none none (smooth_predictor offsets tv t).1 none
          (smooth_predictor offsets tv t).2 none).commitFix .qPKW (pf + cf)) := by
      unfold Data.fix
      simp only [Attr.isFlow, if_true]
      rw [if_neg (not_lt.mpr hge), h36, if_neg (not_lt.mpr hle)]
    rw [hfix]
    dsimp only
    have hcq : ((mkData none none none (smooth_predictor offsets tv t).1 none
        (smooth_predictor offsets tv t).2 none).commitFix .qPKW (pf + cf)).qPKW =
        some (pf + cf) := by
      simp [Data.commitFix, Data.setAttr]
    cases hv : ((mkData none none none (smooth_predictor offsets tv t).1 none
        (smooth_predictor offsets tv t).2 none).commitFix .qPKW (pf + cf)).vPKW with
    | none => simpa [hv] using hcq
    | some pv =>
      cases hc2 : (get_correction tv tk (smooth_predictor offsets)).2 with
      | none => simpa [hv, hc2] using hcq
      | some cv =>
        simp only [hv, hc2]
        rw [Data.fix_vPKW_preserves_qPKW]
        exact hcq
  · intro pf cf ps cs hp hc hge hle hne hse hmf
    unfold feedback_predictor_absolute
    rw [hp, hc]
    dsimp only
    have h36 : (pf + cf) * 3600 / 3600 = pf + cf := by
      field_simp
    have hfix1 : ((mkData none none none (some pf) none (some ps) none).fix .qPKW
        (pf + cf) 3600) =
        (true, (mkData none none none (some pf) none (some ps) none).commitFix .qPKW
          (pf + cf)) := by
      unfold Data.fix
      simp only [Attr.isFlow, if_true]
      rw [if_neg (not_lt.mpr hge), h36, if_neg (not_lt.mpr hle)]
    have hq1 : (mkData none none none (some pf) none (some ps) none).qPKW = some pf := by
      simp [mkData]
    rw [hq1]
    dsimp only
    rw [hfix1]
    dsimp only
    set d1 := (mkData none none none (some pf) none (some ps) none).commitFix .qPKW
      (pf + cf) with hd1
    have hv1 : d1.vPKW = some ps := by
      simp [hd1, Data.commitFix, Data.setAttr, mkData]
    rw [hv1]
    dsimp only
    have hflow : d1.attr .qPKW = some (pf + cf) := by
      simp [hd1, Data.attr, Data.commitFix, Data.setAttr, mkData]
    have hfix2 : (d1.fix .vPKW (ps + cs) 3600) =
        (true, d1.commitFix .vPKW (ps + cs)) := by
      unfold Data.fix
      simp only [Attr.isFlow, Bool.false_eq_true, if_false, Attr.vehType,
        VehType.flowAttr]
      rw [hflow]
      dsimp only
      rw [if_neg hne, if_neg (by omega : ¬ 0 < getSpeedError (some (pf + cf))
        (some (ps + cs)) (MAX_SPEED VehType.PKW)), h36, if_neg (not_lt.mpr hmf)]
    rw [hfix2]
    simp [Data.commitFix, Data.setAttr]

/-- History realizing the spec scenario (time unit compressed): three
same-weekday flows 800, 820, 780 at offsets 10, 20, 30 before the target
time 0 (average 800), the last known measurement `(900, 110)` at
`tk = -1`, and history around `tk` predicting `(810, 100)` there. -/
def c7tv : TimeValues := fun time =>
  if time = -10 then some (some 800, some 100)
  else if time = -20 then some (some 820, some 100)
  else if time = -30 then some (some 780, some 100)
  else if time = -1 then some (some 900, some 110)
  else if time = -11 then some (some 810, some 100)
  else if time = -21 then some (some 810, some 100)
  else if time = -31 then some (some 810, some 100)
  else none

/-- C7 witness: on `c7tv` the primary prediction at 0 is 800, the
correction is `900 − 810 = +90`, and the feedback predictor forecasts
flow `890` (and speed `110 = 100 + 10`). -/
theorem C7_feedback_predictor_witness :
    (feedback_predictor_absolute (smooth_predictor [10, 20, 30]) (-1) c7tv 0).1 =
      some 890 ∧
    (feedback_predictor_absolute (smooth_predictor [10, 20, 30]) (-1) c7tv 0).2 =
      some 110 := by
  have hsmooth0 : smooth_predictor [10, 20, 30] c7tv 0 = (some 800, some 100) := by
    norm_num [smooth_predictor, safe_avg, c7tv, List.filterMap_cons, List.sum_cons,
      List.sum_nil, List.cons_ne_nil]
  have hsmoothk : smooth_predictor [10, 20, 30] c7tv (-1) = (some 810, some 100) := by
    norm_num [smooth_predictor, safe_avg, c7tv, List.filterMap_cons, List.sum_cons,
      List.sum_nil, List.cons_ne_nil]
  have hcorr : get_correction c7tv (-1) (smooth_predictor [10, 20, 30]) =
      (some 90, some 10) := by
    unfold get_correction
    rw [show c7tv (-1) = some (some 900, some 110) by norm_num [c7tv]]
    rw [hsmoothk]
    norm_num [SAFE_SUB]
  have h := C7_feedback_predictor [10, 20, 30] c7tv 0 (-1)
  constructor
  · have h1 := h.2.1 800 90 (by rw [hsmooth0]) (by rw [hcorr])
      (by norm_num) (by norm_num [MAX_FLOW])
    rw [h1]
    norm_num
  · have h2 := h.2.2 800 90 100 10 hsmooth0 hcorr (by norm_num)
      (by norm_num [MAX_FLOW]) (by norm_num)
      (by norm_num [getSpeedError, MAX_SPEED, kmhMultiplier])
      (by norm_num [maxFlowPerHour, LENGTH, kmhMultiplier])
    rw [h2]
    norm_num

/-! ### correctDetector.py: polynomialFix -/

/-- `MAX_GAP = MAX_GAP_TIME.seconds / updateInterval.seconds`
(`MAX_GAP_TIME` is 30 minutes; Python float division, exact in ℚ). -/
def MAX_GAP (uSec : ℚ) : ℚ := 1800 / uSec

/-- `getattr(detData[i], attr)` on the data list.  In the `fixGaps`
calling context every entry of the scanned range is non-null (`fixGaps`
replaces nulls by `emptyData` first); a null entry stands for a null
attribute here. -/
def entryAttr (detData : List (Option Data)) (i : ℕ) (a : Attr) : Option ℚ :=
  match detData.getD i none with
  | none => none
  | some d => d.attr a

/-- `valid_indices_and_data(detData, attr, start, end)`: indices and
values of the valid (non-fixed, with original id) entries for `attr` in
the range clamped to `[0, len(detData))`.  The requested bounds may be
negative, hence the integer arguments. -/
def valid_indices_and_data (detData : List (Option Data)) (a : Attr)
    (start end_ : ℤ) : List ℤ × List ℚ :=
  let s := (max start 0).toNat
  let e := (min end_ (detData.length : ℤ)).toNat
  let pairs := (List.range' s (e - s)).filterMap fun i =>
    match detData.getD i none with
    | none => none
    | some d =>
      match d.getIfNotFixed a with
      | none => none
      | some v => some ((i : ℤ), v)
  (pairs.map Prod.fst, pairs.map Prod.snd)

/-- The inner while of the forecast branch of `polynomialFix`: decrement
`support` while the earliest still-counted support index (`x[-support]`,
i.e. `x[len(x) - support]`) lies before `firstValid`. -/
def dropSupport (x : List ℤ) (firstValid : ℤ) : ℕ → ℕ
  | 0 => 0
  | support + 1 =>
    if x.getD (x.length - (support + 1)) 0 < firstValid then
      dropSupport x firstValid support
    else support + 1

/-- The outer while of the forecast branch: shrink `size` by one at a
time, each time discarding support before `gapStart - 2*size`, until the
support count is at least `size` (or `size` reaches 0).  Returns the
final `(support, size)`. -/
def shrinkSize (x : List ℤ) (gapStart : ℤ) : ℕ → ℕ → ℕ × ℕ
  | support, 0 => (support, 0)
  | support, size + 1 =>
    if support < size + 1 then
      shrinkSize x gapStart (dropSupport x (gapStart - 2 * (size : ℤ)) support) size
    else (support, size + 1)

/-- Degree-1 least squares (`Polynomial.fit(x, y, 1).convert().coef`),
computed exactly over ℚ: the regression line is `c0 + c1·x`.  It is the
unique least-squares solution whenever the support holds two distinct
indices; none of the support conditions verified for C3 depend on the
fitted values. -/
def polyFit1 (x : List ℤ) (y : List ℚ) : ℚ × ℚ :=
  let n : ℚ := x.length
  let sx : ℚ := (x.map fun i => (i : ℚ)).sum
  let sy : ℚ := y.sum
  let sxx : ℚ := (x.map fun i => ((i : ℚ)) ^ 2).sum
  let sxy : ℚ := (List.zipWith (fun i v => (i : ℚ) * v) x y).sum
  let c1 := (n * sxy - sx * sy) / (n * sxx - sx ^ 2)
  ((sy - c1 * sx) / n, c1)

/-- The per-gap support selection of `polynomialFix`: `some (x, y,
fillEnd)` exactly when the gap `[gapStart, gapEnd)` will be filled (up
to `fillEnd`), `none` when it is skipped.  In forecast mode a gap larger
than `MAX_GAP` only triggers a warning and is still processed; in
interpolation mode it is skipped.  The trailing `if x:` of the source
(skip on empty support) is folded in. -/
def gapPlan (detData : List (Option Data)) (a : Attr) (gapStart gapEnd : ℕ)
    (uSec : ℚ) (forecast : Bool) : Option (List ℤ × List ℚ × ℕ) :=
  let size := gapEnd - gapStart
  if forecast then
    let xy := valid_indices_and_data detData a ((gapStart : ℤ) - 2 * size) gapStart
    let sr := shrinkSize xy.1 gapStart xy.1.length size
    if sr.1 < 2 then none
    else if xy.1 = [] then none
    else some (xy.1, xy.2, gapStart + sr.2)
  else
    if (size : ℚ) ≤ MAX_GAP uSec then
      let required : ℚ := max ((size : ℚ) / 2) 1
      let xyb := valid_indices_and_data detData a ((gapStart : ℤ) - size) gapStart
      let xya := valid_indices_and_data detData a gapEnd ((gapEnd : ℤ) + size)
      if required ≤ (xyb.1.length : ℚ) ∧ required ≤ (xya.1.length : ℚ) then
        if xyb.1 ++ xya.1 = [] then none
        else some (xyb.1 ++ xya.1, xyb.2 ++ xya.2, gapEnd)
      else none
    else none

/-- The fill loop `for x in range(gapStart, gapEnd)`: evaluate the
fitted line and commit through `Data.fix`, counting successes; `fuel`
is the remaining number of indices (`gapEnd - i`). -/
def fillGap (a : Attr) (c : ℚ × ℚ) (uSec : ℚ) :
    List (Option Data) → ℕ → ℕ → List (Option Data) × ℕ
  | detData, _, 0 => (detData, 0)
  | detData, i, fuel + 1 =>
    let value := c.1 + c.2 * (i : ℚ)
    match detData.getD i none with
    | none => fillGap a c uSec detData (i + 1) fuel
    | some d =>
      let r := d.fix a value uSec
      let rest := fillGap a c uSec (detData.set i (some r.2)) (i + 1) fuel
      (rest.1, rest.2 + if r.1 then 1 else 0)

/-- Processing of a single gap inside `polynomialFix`: fit and fill when
`gapPlan` selects a support. -/
def processGap (detData : List (Option Data)) (a : Attr) (gapStart gapEnd : ℕ)
    (uSec : ℚ) (forecast : Bool) : List (Option Data) × ℕ :=
  match gapPlan detData a gapStart gapEnd uSec forecast with
  | none => (detData, 0)
  | some (x, y, fillEnd) =>
    fillGap a (polyFit1 x y) uSec detData gapStart (fillEnd - gapStart)

/-- The gap-start scan of `find_gaps`: first index in `[i, e)` whose
attribute is null (skipping valid entries); `fuel ≥ e - i`. -/
def skipValid (detData : List (Option Data)) (a : Attr) (e : ℕ) :
    ℕ → ℕ → ℕ
  | i, 0 => i
  | i, fuel + 1 =>
    if i < e ∧ entryAttr detData i a ≠ none then
      skipValid detData a e (i + 1) fuel
    else i

/-- The gap-end scan of `find_gaps`: first index in `[i, e)` whose
attribute is not null (skipping the null run); `fuel ≥ e - i`. -/
def skipGap (detData : List (Option Data)) (a : Attr) (e : ℕ) :
    ℕ → ℕ → ℕ
  | i, 0 => i
  | i, fuel + 1 =>
    if i < e ∧ entryAttr detData i a = none then
      skipGap detData a e (i + 1) fuel
    else i

/-- `find_gaps(detData, attr, start, end)` unrolled with fuel (one unit
per emitted gap suffices since gaps are disjoint and nonempty). -/
def find_gaps_aux (detData : List (Option Data)) (a : Attr) (e : ℕ) :
    ℕ → ℕ → List (ℕ × ℕ)
  | _, 0 => []
  | i, fuel + 1 =>
    if i < e then
      let gapStart := skipValid detData a e i (e - i)
      if gapStart < e then
        let gapEnd := skipGap detData a e gapStart (e - gapStart)
        (gapStart, gapEnd) :: find_gaps_aux detData a e gapEnd fuel
      else []
    else []

/-- `find_gaps(detData, attr, start, end)`: the maximal runs of null
`attr` values within `[start, end)`. -/
def find_gaps (detData : List (Option Data)) (a : Attr) (s e : ℕ) :
    List (ℕ × ℕ) :=
  find_gaps_aux detData a e s (e - s)

/-- Sequential processing of the gaps of one attribute. -/
def processGaps (a : Attr) (uSec : ℚ) (forecast : Bool) :
    List (Option Data) → List (ℕ × ℕ) → List (Option Data) × ℕ
  | detData, [] => (detData, 0)
  | detData, (gs, ge) :: rest =>
    let r := processGap detData a gs ge uSec forecast
    let r2 := processGaps a uSec forecast r.1 rest
    (r2.1, r.2 + r2.2)

/-- `polynomialFix(detData, start, end, fix_counts, forecast)`: for each
attribute in `Data.attrs` order, fill the null gaps of `[start, end)`
from a linear fit where the support conditions allow; returns the new
data and the per-attribute success counts.  The source consumes the lazy
`find_gaps` generator while mutating; this two-phase form is equivalent
because fills only touch indices before the current gap end (so the
resumed scan sees unchanged data) and fixed values are invisible to
`getIfNotFixed` (so later supports are unchanged too). -/
def polynomialFix (detData : List (Option Data)) (start end_ : ℕ) (uSec : ℚ)
    (forecast : Bool) : List (Option Data) × (Attr → ℕ) :=
  let step := fun (acc : List (Option Data) × (Attr → ℕ)) (a : Attr) =>
    let r := processGaps a uSec forecast acc.1 (find_gaps acc.1 a start end_)
    (r.1, fun a2 => if a2 = a then acc.2 a2 + r.2 else acc.2 a2)
  [Attr.qPKW, Attr.qLKW, Attr.vPKW, Attr.vLKW].foldl step (detData, fun _ => 0)

lemma dropSupport_le (x : List ℤ) (fv : ℤ) : ∀ s, dropSupport x fv s ≤ s := by
  intro s
  induction s with
  | zero => simp [dropSupport]
  | succ n ih =>
    unfold dropSupport
    by_cases h : x.getD (x.length - (n + 1)) 0 < fv
    · rw [if_pos h]
      omega
    · rw [if_neg h]

lemma shrinkSize_spec (x : List ℤ) (g : ℤ) :
    ∀ size support,
      (shrinkSize x g support size).2 ≤ (shrinkSize x g support size).1 ∧
      (shrinkSize x g support size).1 ≤ support := by
  intro size
  induction size with
  | zero =>
    intro support
    simp [shrinkSize]
  | succ n ih =>
    intro support
    unfold shrinkSize
    by_cases h : support < n + 1
    · rw [if_pos h]
      have h1 := ih (dropSupport x (g - 2 * (n : ℤ)) support)
      have h2 := dropSupport_le x (g - 2 * (n : ℤ)) support
      exact ⟨h1.1, le_trans h1.2 h2⟩
    · rw [if_neg h]
      constructor
      · omega
      · exact le_refl support

/-! ### Claim C3 -/

/-- C3: gap-filler support preconditions of `polynomialFix`.
Interpolation mode fills a gap of `size` slots only when the gap is at
most `MAX_GAP` (30 minutes in update-interval slots) and each side
window of `size` slots holds at least `ceil(size/2)` valid (non-fixed)
support points (the code's `max(size/2, 1)` threshold equals
`ceil(size/2)` for every nonempty gap).  Forecast mode takes its support
from the valid points of `[gapStart - 2*size, gapStart)`, shrinks `size`
until the retained support count is at least the (shrunk) size, fills
exactly `[gapStart, gapStart + size')`, and never extrapolates from
fewer than two support points. -/
theorem C3_gapPlan_support (detData : List (Option Data)) (a : Attr)
    (gs ge : ℕ) (u : ℚ) :
    (∀ x y fe, gapPlan detData a gs ge u false = some (x, y, fe) →
      ((ge - gs : ℕ) : ℚ) ≤ MAX_GAP u ∧ fe = ge ∧
      x = (valid_indices_and_data detData a ((gs : ℤ) - ((ge - gs : ℕ) : ℤ)) gs).1 ++
          (valid_indices_and_data detData a (ge : ℤ) ((ge : ℤ) + ((ge - gs : ℕ) : ℤ))).1 ∧
      (ge - gs + 1) / 2 ≤
        (valid_indices_and_data detData a ((gs : ℤ) - ((ge - gs : ℕ) : ℤ)) gs).1.length ∧
      (ge - gs + 1) / 2 ≤
        (valid_indices_and_data detData a (ge : ℤ) ((ge : ℤ) + ((ge - gs : ℕ) : ℤ))).1.length) ∧
    (∀ x y fe, gapPlan detData a gs ge u true = some (x, y, fe) →
      x = (valid_indices_and_data detData a ((gs : ℤ) - 2 * ((ge - gs : ℕ) : ℤ)) gs).1 ∧
      2 ≤ (shrinkSize x gs x.length (ge - gs)).1 ∧
      2 ≤ x.length ∧
      fe = gs + (shrinkSize x gs x.length (ge - gs)).2 ∧
      (shrinkSize x gs x.length (ge - gs)).2 ≤
        (shrinkSize x gs x.length (ge - gs)).1) := by
  constructor
  · intro x y fe hplan
    unfold gapPlan at hplan
    simp only [Bool.false_eq_true, if_false] at hplan
    split_ifs at hplan with hmax hreq hne
    rw [Option.some.injEq, Prod.mk.injEq, Prod.mk.injEq] at hplan
    obtain ⟨rfl, rfl, rfl⟩ := hplan
    refine ⟨hmax, rfl, rfl, ?_, ?_⟩
    · have hb1 : ((ge - gs : ℕ) : ℚ) / 2 ≤
          ((valid_indices_and_data detData a ((gs : ℤ) - ((ge - gs : ℕ) : ℤ))
            gs).1.length : ℚ) := le_trans (le_max_left _ _) hreq.1
      have hb2 : (1 : ℚ) ≤
          ((valid_indices_and_data detData a ((gs : ℤ) - ((ge - gs : ℕ) : ℤ))
            gs).1.length : ℚ) := le_trans (le_max_right _ _) hreq.1
      have hb1n : (ge - gs : ℕ) ≤ 2 *
          (valid_indices_and_data detData a ((gs : ℤ) - ((ge - gs : ℕ) : ℤ))
            gs).1.length := by
        have h2b := (div_le_iff₀ (by norm_num : (0:ℚ) < 2)).mp hb1
        have h2c : ((ge - gs : ℕ) : ℚ) ≤
            ((2 * (valid_indices_and_data detData a ((gs : ℤ) - ((ge - gs : ℕ) : ℤ))
              gs).1.length : ℕ) : ℚ) := by
          push_cast
          linarith
        exact Nat.cast_le.mp h2c
      have hb2n : 1 ≤
          (valid_indices_and_data detData a ((gs : ℤ) - ((ge - gs : ℕ) : ℤ))
            gs).1.length := by exact_mod_cast hb2
      omega
    · have hb1 : ((ge - gs : ℕ) : ℚ) / 2 ≤
          ((valid_indices_and_data detData a (ge : ℤ)
            ((ge : ℤ) + ((ge - gs : ℕ) : ℤ))).1.length : ℚ) :=
        le_trans (le_max_left _ _) hreq.2
      have hb2 : (1 : ℚ) ≤
          ((valid_indices_and_data detData a (ge : ℤ)
            ((ge : ℤ) + ((ge - gs : ℕ) : ℤ))).1.length : ℚ) :=
        le_trans (le_max_right _ _) hreq.2
      have hb1n : (ge - gs : ℕ) ≤ 2 *
          (valid_indices_and_data detData a (ge : ℤ)
            ((ge : ℤ) + ((ge - gs : ℕ) : ℤ))).1.length := by
        have h2b := (div_le_iff₀ (by norm_num : (0:ℚ) < 2)).mp hb1
        have h2c : ((ge - gs : ℕ) : ℚ) ≤
            ((2 * (valid_indices_and_data detData a (ge : ℤ)
              ((ge : ℤ) + ((ge - gs : ℕ) : ℤ))).1.length : ℕ) : ℚ) := by
          push_cast
          linarith
        exact Nat.cast_le.mp h2c
      have hb2n : 1 ≤
          (valid_indices_and_data detData a (ge : ℤ)
            ((ge : ℤ) + ((ge - gs : ℕ) : ℤ))).1.length := by exact_mod_cast hb2
      omega
  · intro x y fe hplan
    unfold gapPlan at hplan
    simp only [if_true] at hplan
    split_ifs at hplan with hsr hne
    rw [Option.some.injEq, Prod.mk.injEq, Prod.mk.injEq] at hplan
    obtain ⟨rfl, rfl, rfl⟩ := hplan
    push_neg at hsr
    have hspec := shrinkSize_spec
      ((valid_indices_and_data detData a ((gs : ℤ) - 2 * ((ge - gs : ℕ) : ℤ)) gs).1)
      gs (ge - gs)
      ((valid_indices_and_data detData a ((gs : ℤ) - 2 * ((ge - gs : ℕ) : ℤ)) gs).1.length)
    exact ⟨rfl, hsr, le_trans hsr hspec.2, rfl, hspec.1⟩

/-- A valid record with car flow `q`, as support for the C3 witness. -/
def c3rec (q : ℚ) : Option Data :=
  some (mkData (some 1) none none (some q) none none none)

/-- A gap record (all attributes null, as produced by `emptyData` /
erroneous rows). -/
def c3gap : Option Data :=
  some (mkData (some 1) none none none none none none)

/-- Data list for the interpolation witness: a 2-slot `qPKW` gap at
indices 2–3 with two valid points on each side. -/
def c3interp : List (Option Data) :=
  [c3rec 500, c3rec 510, c3gap, c3gap, c3rec 560, c3rec 570]

/-- Data list for the forecast witness: four valid points before a
2-slot gap at the right edge. -/
def c3fore : List (Option Data) :=
  [c3rec 500, c3rec 510, c3rec 520, c3rec 530, c3gap, c3gap]

/-- C3 witness: the support conditions instantiated on the concrete
interpolation gap `[2, 4)` of `c3interp` (60 s update interval) and the
forecast gap `[4, 6)` of `c3fore`. -/
theorem C3_gapPlan_support_witness :
    (((4 - 2 : ℕ) : ℚ) ≤ MAX_GAP 60 ∧
      (4 - 2 + 1) / 2 ≤
        (valid_indices_and_data c3interp .qPKW
          (((2 : ℕ) : ℤ) - ((4 - 2 : ℕ) : ℤ)) ((2 : ℕ) : ℤ)).1.length) ∧
    (2 ≤ (shrinkSize [0, 1, 2, 3] ((4 : ℕ) : ℤ)
        ([0, 1, 2, 3] : List ℤ).length (6 - 4)).1 ∧
      (6 : ℕ) = 4 + (shrinkSize [0, 1, 2, 3] ((4 : ℕ) : ℤ)
        ([0, 1, 2, 3] : List ℤ).length (6 - 4)).2) := by
  have h1 : valid_indices_and_data c3interp Attr.qPKW
      (((2 : ℕ) : ℤ) - ((4 - 2 : ℕ) : ℤ)) ((2 : ℕ) : ℤ) = ([0, 1], [500, 510]) := by
    decide
  have h2 : valid_indices_and_data c3interp Attr.qPKW ((4 : ℕ) : ℤ)
      (((4 : ℕ) : ℤ) + ((4 - 2 : ℕ) : ℤ)) = ([4, 5], [560, 570]) := by
    decide
  have hplanI : gapPlan c3interp .qPKW 2 4 60 false =
      some ([0, 1, 4, 5], [500, 510, 560, 570], 4) := by
    simp only [gapPlan, Bool.false_eq_true, if_false]
    rw [h1, h2]
    norm_num [MAX_GAP]
    exact fun hcon => absurd hcon (by decide)
  have hplanF : gapPlan c3fore .qPKW 4 6 60 true =
      some ([0, 1, 2, 3], [500, 510, 520, 530], 6) := by
    decide
  have hI := (C3_gapPlan_support c3interp .qPKW 2 4 60).1 _ _ _ hplanI
  have hF := (C3_gapPlan_support c3fore .qPKW 4 6 60).2 _ _ _ hplanF
  exact ⟨⟨hI.1, hI.2.2.2.1⟩, hF.2.1, hF.2.2.2.1⟩

end SumoLDL
